import Mathlib

/-!
Verification development for the real-time conversational messaging engine
(NestJS chat module: `ChatService`, `ChatGateway`, `MessageRepository`,
`ConversationRepository`).

The MongoDB-backed stores are embedded shallowly: a `ChatState` holds the
`users`, `conversations` and `messages` collections as lists (insertion
order), together with fresh-id counters and a logical clock `now`.  The
store assigns `createdAt` at write time from the logical clock, which is
bumped on every mutating store operation, so the `messages` list is kept in
ascending `createdAt` order; the Mongo query `sort({createdAt: -1})` is
therefore embedded as `List.reverse` of the filtered collection.

Mongo update documents are embedded as single atomic state transitions
(one function application = one `updateMany` / `findOneAndUpdate` round
trip), and the `async`/`await` yield points of the source are the
granularity used for the interleaving analysis of
`findOrCreateConversation`.
-/

namespace NestChat

abbrev UserId := Nat
abbrev ConvId := Nat
abbrev MsgId := Nat
abbrev Time := Nat

/-- `MessageStatus` enum of `message.schema.ts`. -/
inductive MessageStatus where
  | sent
  | delivered
  | read
deriving DecidableEq

/-- `MessageType` enum of `message.schema.ts`. -/
inductive MessageType where
  | text
  | image
  | file
  | system
deriving DecidableEq

/-- A document of the `messages` collection (`message.schema.ts`).
`metadata` is a free-form payload carried through unchanged. -/
structure Message where
  id : MsgId
  conversation : ConvId
  sender : UserId
  receiver : UserId
  content : String
  messageType : MessageType
  status : MessageStatus
  readAt : Option Time
  deliveredAt : Option Time
  isDeleted : Bool
  createdAt : Time
  metadata : Option String
deriving DecidableEq

/-- The `unreadCount` field of a conversation is a JS object
`{ "<userId>": count }`; embedded as an association list preserving key
insertion order (JS object property order). -/
abbrev UnreadMap := List (UserId × Nat)

/-- Property read `obj[u]` with Mongo `$inc`-style missing-key default 0. -/
def getUnread (m : UnreadMap) (u : UserId) : Nat :=
  match m.find? (fun e => e.fst == u) with
  | some e => e.snd
  | none => 0

/-- Property write `obj[u] = n`: overwrites an existing key in place,
appends a fresh key at the end (JS object semantics, which is also how the
Mongo `$set`/`$inc` on `unreadCount.<id>` behaves on the stored object). -/
def setUnread (m : UnreadMap) (u : UserId) (n : Nat) : UnreadMap :=
  if m.any (fun e => e.fst == u) then
    m.map (fun e => if e.fst == u then (u, n) else e)
  else
    m ++ [(u, n)]

/-- Mongo `$inc: { unreadCount.<u>: 1 }` -- a missing key is created at 1. -/
def incUnread (m : UnreadMap) (u : UserId) : UnreadMap :=
  setUnread m u (getUnread m u + 1)

/-- A document of the `conversations` collection
(`conversation.schema.ts`): exactly two participants. -/
structure Conversation where
  id : ConvId
  participants : UserId × UserId
  lastMessage : String
  lastMessageSender : Option UserId
  lastMessageAt : Time
  unreadCount : UnreadMap
  isDeleted : Bool
deriving DecidableEq

/-- The slice of a user document consulted by the chat module
(`user.schema.ts`): `isDeleted`, and `isActive` standing for
`status === 'Active'`. -/
structure User where
  id : UserId
  isDeleted : Bool
  isActive : Bool
deriving DecidableEq

/-- The durable store: the three Mongo collections, fresh-id counters and
the store's write clock (source of `createdAt` / `new Date()` values). -/
structure ChatState where
  users : List User
  conversations : List Conversation
  messages : List Message
  nextConvId : ConvId
  nextMsgId : MsgId
  now : Time
deriving DecidableEq

/-- `UserRepository.findById` as consulted by the chat service. -/
def findUser (st : ChatState) (u : UserId) : Option User :=
  st.users.find? (fun x => x.id == u)

/-- The failures surfacing from the chat operations: the `ApiError`
taxonomy thrown by the service (`notFound`, `forbidden`) plus the Mongoose
ValidationError that `messageModel.create` rejects with when the schema
validators fail -- the service does not catch it, so it propagates to the
caller like the others. -/
inductive ApiError where
  | notFound
  | forbidden
  | validation
deriving DecidableEq

namespace ConversationRepository

/-- `BaseRepository.findById` on the conversations collection.  The
soft-delete plugin is not installed on `ConversationSchema`, so no
`isDeleted` filter is applied here. -/
def findById (st : ChatState) (cid : ConvId) : Option Conversation :=
  st.conversations.find? (fun c => c.id == cid)

/-- The Mongo filter of `findOrCreateConversation`:
`{ participants: { $all: [id1, id2] }, isDeleted: false }`. -/
def pairMatch (u1 u2 : UserId) (c : Conversation) : Bool :=
  (c.participants.1 == u1 || c.participants.2 == u1) &&
  (c.participants.1 == u2 || c.participants.2 == u2) &&
  !c.isDeleted

/-- The `findOne` step of `findOrCreateConversation` (first store round
trip; an `await` yield point in the source). -/
def focFind (st : ChatState) (u1 u2 : UserId) : Option Conversation :=
  st.conversations.find? (pairMatch u1 u2)

/-- The `create` step of `findOrCreateConversation` (second store round
trip): participants `[id1, id2]`, both unread counters 0, `lastMessageAt`
now, schema defaults for the rest. -/
def focCreate (st : ChatState) (u1 u2 : UserId) : Conversation × ChatState :=
  let c : Conversation :=
    { id := st.nextConvId
      participants := (u1, u2)
      lastMessage := ""
      lastMessageSender := none
      lastMessageAt := st.now
      unreadCount := [(u1, 0), (u2, 0)]
      isDeleted := false }
  (c, { st with
          conversations := st.conversations ++ [c]
          nextConvId := st.nextConvId + 1
          now := st.now + 1 })

/-- `ConversationRepository.findOrCreateConversation`, one caller run to
completion (find, then create only when the find came back empty). -/
def findOrCreateConversation (st : ChatState) (u1 u2 : UserId) :
    Conversation × ChatState :=
  match focFind st u1 u2 with
  | some c => (c, st)
  | none => focCreate st u1 u2

/-- Two concurrent `findOrCreateConversation(u1, u2)` callers under the
schedule in which both `findOne` steps complete before either `create`
step runs (each `await` in the source is a yield point, so this
interleaving is admissible).  Each caller branches on its own find result.
Returns (caller 1's conversation, caller 2's conversation, final state). -/
def focTwoCallsInterleaved (st : ChatState) (u1 u2 : UserId) :
    Conversation × Conversation × ChatState :=
  match focFind st u1 u2, focFind st u1 u2 with
  | some c1, some c2 => (c1, c2, st)
  | some c1, none =>
      let (c2, st1) := focCreate st u1 u2
      (c1, c2, st1)
  | none, some c2 =>
      let (c1, st1) := focCreate st u1 u2
      (c1, c2, st1)
  | none, none =>
      let (c1, st1) := focCreate st u1 u2
      let (c2, st2) := focCreate st1 u1 u2
      (c1, c2, st2)

/-- Preview truncation of `updateLastMessage`:
`message.length > 100 ? message.substring(0, 100) + '...' : message`. -/
def truncatePreview (s : String) : String :=
  if s.length > 100 then (s.take 100) ++ "..." else s

/-- `ConversationRepository.updateLastMessage`: one `findByIdAndUpdate`
carrying both the `$set` of the last-message summary and the `$inc` of
`unreadCount.<receiverId>` -- a single atomic store update. -/
def updateLastMessage (st : ChatState) (cid : ConvId) (message : String)
    (senderId receiverId : UserId) : ChatState :=
  { st with
      conversations := st.conversations.map (fun c =>
        if c.id == cid then
          { c with
              lastMessage := truncatePreview message
              lastMessageSender := some senderId
              lastMessageAt := st.now
              unreadCount := incUnread c.unreadCount receiverId }
        else c)
      now := st.now + 1 }

/-- `ConversationRepository.resetUnreadCount`: `findByIdAndUpdate` with
`$set: { unreadCount.<userId>: 0 }`. -/
def resetUnreadCount (st : ChatState) (cid : ConvId) (userId : UserId) :
    ChatState :=
  { st with
      conversations := st.conversations.map (fun c =>
        if c.id == cid then
          { c with unreadCount := setUnread c.unreadCount userId 0 }
        else c)
      now := st.now + 1 }

/-- `ConversationRepository.isParticipant`: `findOne` on
`{ _id, participants: userId, isDeleted: false }`, coerced to a boolean. -/
def isParticipant (st : ChatState) (cid : ConvId) (userId : UserId) : Bool :=
  st.conversations.any (fun c =>
    c.id == cid &&
    (c.participants.1 == userId || c.participants.2 == userId) &&
    !c.isDeleted)

/-- `ConversationRepository.getOtherParticipant`: `findById` (no
`isDeleted` filter), then `participants.find(p => !p.equals(userObjId))`
-- the first participant different from `userId`, whether or not `userId`
is itself a participant. -/
def getOtherParticipant (st : ChatState) (cid : ConvId) (userId : UserId) :
    Option UserId :=
  match findById st cid with
  | none => none
  | some c =>
      if c.participants.1 != userId then some c.participants.1
      else if c.participants.2 != userId then some c.participants.2
      else none

end ConversationRepository

namespace MessageRepository

/-- The schema validators on `content` (`message.schema.ts`:
`@PropData({ type: String, required: true, maxlength: 5000 })`): the
Mongoose `required` validator rejects the empty string for a String path,
and `maxlength` bounds the JS string length at 5000. -/
def validContent (content : String) : Bool :=
  content.length != 0 && decide (content.length ≤ 5000)

/-- `MessageRepository.createMessage`: `messageModel.create` runs the
schema validators and rejects with a ValidationError -- before any write
-- when `content` is empty or longer than 5000; otherwise it persists the
message with schema defaults `status = SENT`, `readAt = null`,
`deliveredAt = null`, `isDeleted = false`, the store assigning
`createdAt` at write time. -/
def createMessage (st : ChatState) (conversation : ConvId)
    (sender receiver : UserId) (content : String) (messageType : MessageType)
    (metadata : Option String) : Except ApiError (Message × ChatState) :=
  if !validContent content then .error .validation
  else
    let m : Message :=
      { id := st.nextMsgId
        conversation := conversation
        sender := sender
        receiver := receiver
        content := content
        messageType := messageType
        status := .sent
        readAt := none
        deliveredAt := none
        isDeleted := false
        createdAt := st.now
        metadata := metadata }
    .ok (m, { st with
                messages := st.messages ++ [m]
                nextMsgId := st.nextMsgId + 1
                now := st.now + 1 })

/-- The non-deleted messages of a conversation in ascending `createdAt`
order (the store keeps `messages` in that order; see the header note). -/
def conversationLog (st : ChatState) (cid : ConvId) : List Message :=
  st.messages.filter (fun m => m.conversation == cid && !m.isDeleted)

/-- Result shape of `MessageRepository.getConversationMessages`. -/
structure MessagesPage where
  messages : List Message
  total : Nat
  hasMore : Bool
deriving DecidableEq

/-- `MessageRepository.getConversationMessages`: filter to the
conversation's non-deleted messages, `sort({createdAt: -1})` (embedded as
`reverse` of the ascending log), `skip((page-1)*limit)`, `limit(limit)`,
then `messages.reverse()` so each page is returned in chronological
order.  `total` counts all matches, `hasMore = skip + page.length < total`. -/
def getConversationMessages (st : ChatState) (cid : ConvId)
    (page limit : Nat) : MessagesPage :=
  let skip := (page - 1) * limit
  let descending := (conversationLog st cid).reverse
  let fetched := (descending.drop skip).take limit
  { messages := fetched.reverse
    total := (conversationLog st cid).length
    hasMore := skip + fetched.length < (conversationLog st cid).length }

/-- The Mongo filter of `markAsRead` (and of `getUnreadCount` /
`getUnreadMessageIds`, which use the same one):
`{ conversation, receiver, status: { $ne: READ }, isDeleted: false }`. -/
def readMatches (cid : ConvId) (userId : UserId) (m : Message) : Bool :=
  m.conversation == cid && m.receiver == userId &&
  m.status != .read && !m.isDeleted

/-- `MessageRepository.markAsRead`: one `updateMany` setting
`status = READ, readAt = now` on every message matching `readMatches`;
returns `modifiedCount`. -/
def markAsRead (st : ChatState) (cid : ConvId) (userId : UserId) :
    Nat × ChatState :=
  ((st.messages.filter (readMatches cid userId)).length,
   { st with
       messages := st.messages.map (fun m =>
         if readMatches cid userId m then
           { m with status := .read, readAt := some st.now }
         else m)
       now := st.now + 1 })

/-- The Mongo filter of `markAsDelivered`:
`{ receiver, status: SENT, isDeleted: false }` -- note: no conversation
key, the update is global across all conversations. -/
def deliveredMatches (receiverId : UserId) (m : Message) : Bool :=
  m.receiver == receiverId && m.status == .sent && !m.isDeleted

/-- `MessageRepository.markAsDelivered`: one `updateMany` setting
`status = DELIVERED, deliveredAt = now` on every message matching
`deliveredMatches`; returns `modifiedCount`. -/
def markAsDelivered (st : ChatState) (receiverId : UserId) :
    Nat × ChatState :=
  ((st.messages.filter (deliveredMatches receiverId)).length,
   { st with
       messages := st.messages.map (fun m =>
         if deliveredMatches receiverId m then
           { m with status := .delivered, deliveredAt := some st.now }
         else m)
       now := st.now + 1 })

/-- `MessageRepository.getUnreadMessageIds`: ids of the messages matching
the same filter as `markAsRead`. -/
def getUnreadMessageIds (st : ChatState) (cid : ConvId) (userId : UserId) :
    List MsgId :=
  (st.messages.filter (readMatches cid userId)).map (fun m => m.id)

/-- `MessageRepository.softDelete`: `findOneAndUpdate` on
`{ _id: messageId, sender: userId }` setting `isDeleted = true`.  The
soft-delete plugin installed on `MessageSchema` adds
`isDeleted: { $ne: true }` to the filter. -/
def softDelete (st : ChatState) (messageId : MsgId) (userId : UserId) :
    ChatState :=
  { st with
      messages := st.messages.map (fun m =>
        if m.id == messageId && m.sender == userId && !m.isDeleted then
          { m with isDeleted := true }
        else m)
      now := st.now + 1 }

end MessageRepository

namespace ChatService

open ConversationRepository MessageRepository

/-- `ChatService.getOrCreateConversation`: 404 unless the counterpart user
exists and is not deleted, then delegate to the repository.  Errors are
thrown before any write, so the state component is unchanged on error. -/
def getOrCreateConversation (st : ChatState) (userId1 userId2 : UserId) :
    Except ApiError Conversation × ChatState :=
  match findUser st userId2 with
  | none => (.error .notFound, st)
  | some otherUser =>
      if otherUser.isDeleted then (.error .notFound, st)
      else
        let (c, st') := findOrCreateConversation st userId1 userId2
        (.ok c, st')

/-- `ChatService.getConversation` (read-only): the `isParticipant` check
runs first; only then is the conversation fetched and its existence
checked. -/
def getConversation (st : ChatState) (conversationId : ConvId)
    (userId : UserId) : Except ApiError Conversation :=
  if !isParticipant st conversationId userId then .error .forbidden
  else
    match ConversationRepository.findById st conversationId with
    | none => .error .notFound
    | some conversation =>
        if conversation.isDeleted then .error .notFound
        else .ok conversation

/-- Shared tail of `ChatService.sendMessage` once the conversation is
resolved: persist the message -- a ValidationError from the schema
validators propagates uncaught, before the conversation update runs (so a
conversation freshly created by find-or-create survives the failed send)
-- then the single conversation update carrying both the summary `$set`
and the unread `$inc`. -/
def sendCore (st : ChatState) (conversation : Conversation)
    (senderId receiverId : UserId) (content : String)
    (messageType : MessageType) (metadata : Option String) :
    Except ApiError (Message × Conversation) × ChatState :=
  match createMessage st conversation.id senderId receiverId content
      messageType metadata with
  | .error e => (.error e, st)
  | .ok (message, st2) =>
      let st3 :=
        updateLastMessage st2 conversation.id content senderId receiverId
      (.ok (message, conversation), st3)

/-- `ChatService.sendMessage`: receiver existence check first (404), then
-- when a `conversationId` is supplied -- the participant check (403) and
the fetch (the source uses a non-null assertion on that fetch: the `none`
branch is unreachable right after a successful participant check); without
a `conversationId` the pair conversation is found-or-created.  Errors are
thrown before any write. -/
def sendMessage (st : ChatState) (senderId receiverId : UserId)
    (content : String) (conversationId : Option ConvId)
    (messageType : MessageType) (metadata : Option String) :
    Except ApiError (Message × Conversation) × ChatState :=
  match findUser st receiverId with
  | none => (.error .notFound, st)
  | some receiver =>
      if receiver.isDeleted then (.error .notFound, st)
      else
        match conversationId with
        | some cid =>
            if !isParticipant st cid senderId then (.error .forbidden, st)
            else
              match ConversationRepository.findById st cid with
              | none => (.error .notFound, st)
              | some conversation =>
                  sendCore st conversation senderId receiverId content
                    messageType metadata
        | none =>
            let (conversation, st1) :=
              findOrCreateConversation st senderId receiverId
            sendCore st1 conversation senderId receiverId content
              messageType metadata

/-- `ChatService.getConversationMessages` (read-only): participant check,
then the repository pagination. -/
def getConversationMessages (st : ChatState) (conversationId : ConvId)
    (userId : UserId) (page limit : Nat) : Except ApiError MessagesPage :=
  if !isParticipant st conversationId userId then .error .forbidden
  else .ok (MessageRepository.getConversationMessages st conversationId page limit)

/-- Result shape of `ChatService.markMessagesAsRead`. -/
structure MarkReadResult where
  count : Nat
  messageIds : List MsgId
deriving DecidableEq

/-- `ChatService.markMessagesAsRead` (the service behind
`markConversationRead`): participant check (403), collect the unread ids,
one bulk `markAsRead`, then `resetUnreadCount`.  Errors are thrown before
any write. -/
def markMessagesAsRead (st : ChatState) (conversationId : ConvId)
    (userId : UserId) : Except ApiError MarkReadResult × ChatState :=
  if !isParticipant st conversationId userId then (.error .forbidden, st)
  else
    let unreadMessageIds := getUnreadMessageIds st conversationId userId
    let (count, st1) := markAsRead st conversationId userId
    let st2 := resetUnreadCount st1 conversationId userId
    (.ok { count := count, messageIds := unreadMessageIds }, st2)

/-- `ChatService.markMessagesAsDelivered` delegates to the repository. -/
def markMessagesAsDelivered (st : ChatState) (userId : UserId) :
    Nat × ChatState :=
  markAsDelivered st userId

/-- `ChatService.getOtherParticipant` delegates to the repository. -/
def getOtherParticipant (st : ChatState) (conversationId : ConvId)
    (userId : UserId) : Option UserId :=
  ConversationRepository.getOtherParticipant st conversationId userId

/-- The caller's unread counter of conversation `cid` as stored. -/
def unreadOf (st : ChatState) (cid : ConvId) (userId : UserId) : Nat :=
  match ConversationRepository.findById st cid with
  | some c => getUnread c.unreadCount userId
  | none => 0

end ChatService

namespace ChatGateway

/-- A bearer token as seen by `jwtService.verifyAsync`: either a valid
signed token carrying its claims, or one that fails verification
(malformed, bad signature, or expired -- `verifyAsync` throws on all of
these alike). -/
inductive Token where
  | valid (sub : UserId)
  | invalid
deriving DecidableEq

/-- The three handshake slots probed by `extractToken`. -/
structure Handshake where
  authorizationHeader : Option Token
  authToken : Option Token
  queryToken : Option Token
deriving DecidableEq

/-- `ChatGateway.extractToken`: authorization header, then auth payload,
then query parameter, in that precedence. -/
def extractToken (h : Handshake) : Option Token :=
  match h.authorizationHeader with
  | some t => some t
  | none =>
      match h.authToken with
      | some t => some t
      | none => h.queryToken

/-- `jwtService.verifyAsync`: the payload for a valid token, failure
otherwise. -/
def verifyToken : Token → Option UserId
  | .valid sub => some sub
  | .invalid => none

/-- `ChatGateway.authenticateSocket`: extract the token and verify the
signature.  No user-record lookup happens here -- the
deleted/inactive-user check lives only in `WsJwtGuard`, which NestJS runs
on subscribed message events, not on the connection handshake. -/
def authenticateSocket (h : Handshake) : Option UserId :=
  match extractToken h with
  | none => none
  | some t => verifyToken t

/-- Outcome of `handleConnection`: `rejected` stands for "an `error` event
is emitted and the socket is disconnected"; `accepted userId room
deliveredCount` stands for the authenticated path (per-user room joined,
presence registered, pending messages marked delivered). -/
inductive ConnOutcome where
  | rejected
  | accepted (userId : UserId) (joinedRoom : UserId) (deliveredCount : Nat)
deriving DecidableEq

/-- Gateway-visible state: the durable store plus the two ephemeral
registries (presence entries and typing keys). -/
structure GatewayState where
  chat : ChatState
  onlineUsers : List UserId
  typing : List (ConvId × UserId)
deriving DecidableEq

/-- `ChatService.setUserOnline` effect on the presence registry (single
active connection: last writer wins). -/
def setOnline (l : List UserId) (u : UserId) : List UserId :=
  u :: l.filter (fun x => x != u)

/-- `ChatGateway.handleConnection`: authenticate; on failure emit an error
event and disconnect (no room join, no presence write, no delivery
marking); on success join `user:<id>`, register presence, and mark all of
the user's pending SENT messages delivered. -/
def handleConnection (gs : GatewayState) (h : Handshake) :
    ConnOutcome × GatewayState :=
  match authenticateSocket h with
  | none => (.rejected, gs)
  | some userId =>
      let (deliveredCount, chat1) :=
        MessageRepository.markAsDelivered gs.chat userId
      (.accepted userId userId deliveredCount,
       { gs with chat := chat1, onlineUsers := setOnline gs.onlineUsers userId })

/-- Outcome of the typing handlers: `relayed toUser cid typist isTyping`
stands for emitting `user_typing` into `user:<toUser>`. -/
inductive TypingOutcome where
  | relayed (toUser : UserId) (conversationId : ConvId) (userId : UserId)
      (isTyping : Bool)
  | dropped
deriving DecidableEq

/-- `ChatGateway.handleTypingStart`: set the short-TTL typing key, look up
the other participant via `getOtherParticipant`, and -- with no membership
check on the emitter -- relay `user_typing` to that user's room when the
lookup is non-null. -/
def handleTypingStart (gs : GatewayState) (userId : UserId) (cid : ConvId) :
    TypingOutcome × GatewayState :=
  let gs1 :=
    { gs with
        typing :=
          if gs.typing.contains (cid, userId) then gs.typing
          else gs.typing ++ [(cid, userId)] }
  match ChatService.getOtherParticipant gs.chat cid userId with
  | some receiverId => (.relayed receiverId cid userId true, gs1)
  | none => (.dropped, gs1)

end ChatGateway

/-- The mutating operations reachable through the service layer (HTTP
surface and gateway both call into these, and nothing else mutates the
message store). -/
inductive ChatOp where
  | send (senderId receiverId : UserId) (content : String)
      (conversationId : Option ConvId) (messageType : MessageType)
      (metadata : Option String)
  | markRead (conversationId : ConvId) (userId : UserId)
  | markDelivered (userId : UserId)
  | getOrCreate (userId1 userId2 : UserId)
  | softDeleteMsg (messageId : MsgId) (userId : UserId)

/-- Apply one service-layer operation to the store. -/
def applyOp (st : ChatState) : ChatOp → ChatState
  | .send s r content cid t md => (ChatService.sendMessage st s r content cid t md).2
  | .markRead cid u => (ChatService.markMessagesAsRead st cid u).2
  | .markDelivered u => (ChatService.markMessagesAsDelivered st u).2
  | .getOrCreate u1 u2 => (ChatService.getOrCreateConversation st u1 u2).2
  | .softDeleteMsg mid u => MessageRepository.softDelete st mid u

/-- Look up a message by id (`_id` is unique in Mongo). -/
def getMsg (st : ChatState) (i : MsgId) : Option Message :=
  st.messages.find? (fun m => m.id == i)

/-- Per-message delivery-state invariant: `readAt` is populated exactly on
READ messages; `deliveredAt` is never populated on a SENT message and
always populated on a DELIVERED one. -/
def MsgInv (m : Message) : Prop :=
  (m.readAt ≠ none ↔ m.status = .read) ∧
  (m.deliveredAt ≠ none → m.status ≠ .sent) ∧
  (m.status = .delivered → m.deliveredAt ≠ none)

instance (m : Message) : Decidable (MsgInv m) := by
  unfold MsgInv; infer_instance

/-- Store-wide delivery-state invariant. -/
def StateInv (st : ChatState) : Prop :=
  ∀ m ∈ st.messages, MsgInv m

instance (st : ChatState) : Decidable (StateInv st) := by
  unfold StateInv; infer_instance

/-- Position of a status in the sent → delivered → read progression. -/
def statusRank : MessageStatus → Nat
  | .sent => 0
  | .delivered => 1
  | .read => 2

/-! Pagination round-trip: the two ways of concatenating the pages of
`getConversationMessages`. -/

/-- Messages of one page. -/
def pageMessages (st : ChatState) (cid : ConvId) (page limit : Nat) :
    List Message :=
  (MessageRepository.getConversationMessages st cid page limit).messages

/-- Number of pages needed to exhaust the conversation log. -/
def numPages (st : ChatState) (cid : ConvId) (limit : Nat) : Nat :=
  ((MessageRepository.conversationLog st cid).length + limit - 1) / limit

/-- Pages 1, 2, ..., numPages concatenated in page order. -/
def pagesConcatInOrder (st : ChatState) (cid : ConvId) (limit : Nat) :
    List Message :=
  ((List.range (numPages st cid limit)).map
    (fun k => pageMessages st cid (k + 1) limit)).flatten

/-- Pages numPages, ..., 2, 1 concatenated in reverse page order (the
order in which a client prepends older pages while scrolling up). -/
def pagesConcatRev (st : ChatState) (cid : ConvId) (limit : Nat) :
    List Message :=
  ((List.range (numPages st cid limit)).reverse.map
    (fun k => pageMessages st cid (k + 1) limit)).flatten

/-- Chronological ordering of a message list. -/
def Chrono (l : List Message) : Prop :=
  l.Pairwise (fun a b => a.createdAt ≤ b.createdAt)

/-! Concrete fixtures used by witnesses and counterexamples. -/

/-- A live (non-deleted, active) user record. -/
def mkUser (i : UserId) : User :=
  { id := i, isDeleted := false, isActive := true }

/-- The empty store. -/
def emptyState : ChatState :=
  { users := [], conversations := [], messages := [], nextConvId := 0,
    nextMsgId := 0, now := 0 }

/-- A store holding just two live users. -/
def twoUserState (a b : UserId) : ChatState :=
  { emptyState with users := [mkUser a, mkUser b] }

/-- A fresh conversation record between `a` and `b` (both counters 0). -/
def mkConv (cid : ConvId) (a b : UserId) : Conversation :=
  { id := cid, participants := (a, b), lastMessage := "",
    lastMessageSender := none, lastMessageAt := 0,
    unreadCount := [(a, 0), (b, 0)], isDeleted := false }

/-- A freshly persisted SENT message. -/
def mkSentMsg (i : MsgId) (cid : ConvId) (s r : UserId) (t : Time) : Message :=
  { id := i, conversation := cid, sender := s, receiver := r, content := "",
    messageType := .text, status := .sent, readAt := none,
    deliveredAt := none, isDeleted := false, createdAt := t,
    metadata := none }

/-- The state after creating the (A,B) conversation in a two-user store:
the "freshly created conversation" setups start here. -/
def stInit (a b : UserId) : ChatState :=
  (ConversationRepository.findOrCreateConversation (twoUserState a b) a b).2

/-- `n` consecutive `sendMessage` calls from `a` to `b` (no
`conversationId` supplied, the valid non-empty text body "hi", no
metadata) starting from the fresh-conversation state. -/
def sendN (a b : UserId) : Nat → ChatState
  | 0 => stInit a b
  | n + 1 =>
      (ChatService.sendMessage (sendN a b n) a b "hi" none .text none).2

/-- Fixture: users 1 and 2 with their conversation 0 and no messages. -/
def stPair : ChatState :=
  { twoUserState 1 2 with conversations := [mkConv 0 1 2], nextConvId := 1 }

/-- Fixture for the pagination counterexample: conversation 0 holds two
messages, created at times 0 and 1. -/
def stTwoMsgs : ChatState :=
  { stPair with
      messages := [mkSentMsg 0 0 1 2 0, mkSentMsg 1 0 1 2 1]
      nextMsgId := 2
      now := 2 }

/-- Fixture for the connection counterexample: a single user that is both
soft-deleted and inactive. -/
def stDeletedUser : ChatState :=
  { emptyState with users := [{ id := 1, isDeleted := true, isActive := false }] }

/-- Gateway state over `stDeletedUser`, nobody online. -/
def gsDeletedUser : ChatGateway.GatewayState :=
  { chat := stDeletedUser, onlineUsers := [], typing := [] }

/-- A handshake presenting a valid, unexpired token for user 1 in the
authorization header. -/
def hsValidUser1 : ChatGateway.Handshake :=
  { authorizationHeader := some (.valid 1), authToken := none,
    queryToken := none }

/-- Gateway state over the two-user pair store (for the typing relay). -/
def gsPair : ChatGateway.GatewayState :=
  { chat := stPair, onlineUsers := [], typing := [] }

/-- A handshake carrying no token in any of the three slots. -/
def hsNoToken : ChatGateway.Handshake :=
  { authorizationHeader := none, authToken := none, queryToken := none }

/-- The non-deleted conversations matching the `$all` pair filter of
`findOrCreateConversation` -- the records the pair-uniqueness invariant
counts. -/
def pairConvs (st : ChatState) (u1 u2 : UserId) : List Conversation :=
  st.conversations.filter (ConversationRepository.pairMatch u1 u2)

/-! ## Generic list and map helpers -/

instance {ε α : Type} [DecidableEq ε] [DecidableEq α] :
    DecidableEq (Except ε α) := fun x y =>
  match x, y with
  | .ok a, .ok b =>
      if h : a = b then .isTrue (by rw [h])
      else .isFalse (fun hc => h (by cases hc; rfl))
  | .error a, .error b =>
      if h : a = b then .isTrue (by rw [h])
      else .isFalse (fun hc => h (by cases hc; rfl))
  | .ok _, .error _ => .isFalse (fun hc => Except.noConfusion hc)
  | .error _, .ok _ => .isFalse (fun hc => Except.noConfusion hc)

theorem find?_map_key {α : Type} (key : α → Nat) (f : α → α)
    (hf : ∀ a, key (f a) = key a) (l : List α) (k : Nat) :
    (l.map f).find? (fun a => key a == k) =
      (l.find? (fun a => key a == k)).map f := by
  induction l with
  | nil => rfl
  | cons a t ih =>
      cases h : (key a == k) with
      | true => simp [List.find?, hf, h]
      | false => simp [List.find?, hf, h, ih]

theorem find?_append_of_some {α : Type} (p : α → Bool) (l l2 : List α)
    (a : α) (h : l.find? p = some a) : (l ++ l2).find? p = some a := by
  induction l with
  | nil => simp [List.find?] at h
  | cons x t ih =>
      rw [List.cons_append]
      cases hx : p x with
      | true => simpa [List.find?, hx] using h
      | false =>
          simp only [List.find?, hx] at h ⊢
          exact ih h

theorem map_if_id_of_no_match {α : Type} (p : α → Bool) (g : α → α)
    (l : List α) (h : ∀ a ∈ l, p a = false) :
    l.map (fun a => if p a then g a else a) = l := by
  induction l with
  | nil => rfl
  | cons x t ih =>
      have hx := h x (List.mem_cons_self x t)
      have ht := ih (fun a ha => h a (List.mem_cons_of_mem _ ha))
      simp [hx, ht]

theorem nodup_key_inj {α : Type} (key : α → Nat) (l : List α)
    (h : (l.map key).Nodup) :
    ∀ a ∈ l, ∀ b ∈ l, key a = key b → a = b := by
  induction l with
  | nil => intro a ha; exact absurd ha (List.not_mem_nil a)
  | cons x t ih =>
      rw [List.map_cons, List.nodup_cons] at h
      intro a ha b hb hk
      rcases List.mem_cons.mp ha with ha1 | ha2 <;>
        rcases List.mem_cons.mp hb with hb1 | hb2
      · rw [ha1, hb1]
      · exfalso
        apply h.1
        have hkx : key x = key b := by rw [← ha1]; exact hk
        rw [hkx]
        exact List.mem_map_of_mem key hb2
      · exfalso
        apply h.1
        have hkx : key x = key a := by rw [← hb1]; exact hk.symm
        rw [hkx]
        exact List.mem_map_of_mem key ha2
      · exact ih h.2 a ha2 b hb2 hk

theorem any_map_congr {α : Type} (p : α → Bool) (f : α → α) (l : List α)
    (h : ∀ a, p (f a) = p a) : (l.map f).any p = l.any p := by
  induction l with
  | nil => rfl
  | cons x t ih => simp [List.any_cons, h, ih]

theorem filter_nil_of_no_match {α : Type} (p : α → Bool) (l : List α)
    (h : ∀ a ∈ l, p a = false) : l.filter p = [] := by
  induction l with
  | nil => rfl
  | cons x t ih =>
      have hx := h x (List.mem_cons_self x t)
      have ht := ih (fun a ha => h a (List.mem_cons_of_mem _ ha))
      simp [List.filter_cons, hx, ht]

theorem conv_find?_map (f : Conversation → Conversation)
    (hf : ∀ c, (f c).id = c.id) (l : List Conversation) (cid : ConvId) :
    (l.map f).find? (fun c => c.id == cid) =
      (l.find? (fun c => c.id == cid)).map f := by
  induction l with
  | nil => rfl
  | cons a t ih =>
      cases h : (a.id == cid) with
      | true => simp [List.find?, hf, h]
      | false => simp [List.find?, hf, h, ih]

theorem msg_find?_map (f : Message → Message)
    (hf : ∀ m, (f m).id = m.id) (l : List Message) (i : MsgId) :
    (l.map f).find? (fun m => m.id == i) =
      (l.find? (fun m => m.id == i)).map f := by
  induction l with
  | nil => rfl
  | cons a t ih =>
      cases h : (a.id == i) with
      | true => simp [List.find?, hf, h]
      | false => simp [List.find?, hf, h, ih]

theorem getUnread_setUnread_self (m : UnreadMap) (u : UserId) (n : Nat) :
    getUnread (setUnread m u n) u = n := by
  induction m with
  | nil => simp [setUnread, getUnread, List.find?]
  | cons e t ih =>
      cases he : (e.fst == u) with
      | true =>
          have he' : e.1 = u := by simpa using he
          simp [setUnread, List.any_cons, he, getUnread, List.find?, he']
      | false =>
          have he' : ¬e.1 = u := by simpa using he
          have hstep : setUnread (e :: t) u n = e :: setUnread t u n := by
            cases ha : t.any (fun x => x.fst == u) with
            | true => simp [setUnread, List.any_cons, he, ha, he']
            | false => simp [setUnread, List.any_cons, he, ha, he']
          rw [hstep]
          simpa [getUnread, List.find?, he] using ih

/-! ## State-shape lemmas for the service operations -/

theorem focMessages (st : ChatState) (u1 u2 : UserId) :
    (ConversationRepository.findOrCreateConversation st u1 u2).2.messages =
      st.messages := by
  unfold ConversationRepository.findOrCreateConversation
  cases h : ConversationRepository.focFind st u1 u2 with
  | none => simp [ConversationRepository.focCreate]
  | some c => rfl

theorem focUsers (st : ChatState) (u1 u2 : UserId) :
    (ConversationRepository.findOrCreateConversation st u1 u2).2.users =
      st.users := by
  unfold ConversationRepository.findOrCreateConversation
  cases h : ConversationRepository.focFind st u1 u2 with
  | none => simp [ConversationRepository.focCreate]
  | some c => rfl

theorem sendCore_messages (st : ChatState) (conversation : Conversation)
    (s r : UserId) (content : String) (t : MessageType)
    (md : Option String) :
    (ChatService.sendCore st conversation s r content t md).2.messages =
      st.messages ∨
    ∃ msg, (ChatService.sendCore st conversation s r content t md).2.messages =
        st.messages ++ [msg] ∧ msg.status = .sent ∧ msg.readAt = none ∧
        msg.deliveredAt = none := by
  unfold ChatService.sendCore MessageRepository.createMessage
  cases hv : MessageRepository.validContent content with
  | false => left; simp [hv]
  | true =>
      right
      refine ⟨{ id := st.nextMsgId, conversation := conversation.id,
                sender := s, receiver := r, content := content,
                messageType := t, status := .sent, readAt := none,
                deliveredAt := none, isDeleted := false,
                createdAt := st.now, metadata := md },
        ?_, rfl, rfl, rfl⟩
      simp [hv, ConversationRepository.updateLastMessage]

theorem sendMessage_messages (st : ChatState) (s r : UserId)
    (content : String) (cid : Option ConvId) (t : MessageType)
    (md : Option String) :
    (ChatService.sendMessage st s r content cid t md).2.messages =
      st.messages ∨
    ∃ msg, (ChatService.sendMessage st s r content cid t md).2.messages =
        st.messages ++ [msg] ∧ msg.status = .sent ∧ msg.readAt = none ∧
        msg.deliveredAt = none := by
  unfold ChatService.sendMessage
  cases hu : findUser st r with
  | none => left; rfl
  | some ru =>
      cases hd : ru.isDeleted with
      | true => left; simp [hd]
      | false =>
          simp only [hd, Bool.false_eq_true, if_false]
          cases cid with
          | some c =>
              cases hp : ConversationRepository.isParticipant st c s with
              | false => left; simp [hp]
              | true =>
                  simp only [hp, Bool.not_true, Bool.false_eq_true, if_false]
                  cases hf : ConversationRepository.findById st c with
                  | none => left; rfl
                  | some conv =>
                      exact sendCore_messages st conv s r content t md
          | none =>
              rcases sendCore_messages
                  (ConversationRepository.findOrCreateConversation st s r).2
                  (ConversationRepository.findOrCreateConversation st s r).1
                  s r content t md with heq | ⟨msg, heq, hs, hr2, hd2⟩
              · left
                show (ChatService.sendCore
                    (ConversationRepository.findOrCreateConversation st s r).2
                    (ConversationRepository.findOrCreateConversation st s r).1
                    s r content t md).2.messages = st.messages
                rw [heq, focMessages]
              · right
                refine ⟨msg, ?_, hs, hr2, hd2⟩
                show (ChatService.sendCore
                    (ConversationRepository.findOrCreateConversation st s r).2
                    (ConversationRepository.findOrCreateConversation st s r).1
                    s r content t md).2.messages = st.messages ++ [msg]
                rw [heq, focMessages]

theorem markMessagesAsRead_messages (st : ChatState) (cid : ConvId)
    (u : UserId) :
    (ChatService.markMessagesAsRead st cid u).2.messages = st.messages ∨
    (ChatService.markMessagesAsRead st cid u).2.messages =
      st.messages.map (fun m =>
        if MessageRepository.readMatches cid u m then
          { m with status := MessageStatus.read, readAt := some st.now }
        else m) := by
  cases hp : ConversationRepository.isParticipant st cid u with
  | false => left; simp [ChatService.markMessagesAsRead, hp]
  | true =>
      right
      simp [ChatService.markMessagesAsRead, hp, MessageRepository.markAsRead,
        ConversationRepository.resetUnreadCount]

theorem getOrCreate_messages (st : ChatState) (u1 u2 : UserId) :
    (ChatService.getOrCreateConversation st u1 u2).2.messages =
      st.messages := by
  unfold ChatService.getOrCreateConversation
  cases hu : findUser st u2 with
  | none => rfl
  | some ou =>
      cases hd : ou.isDeleted with
      | true => simp [hd]
      | false => simp [hd, focMessages]

theorem isParticipant_resetUnreadCount (st : ChatState) (cid0 : ConvId)
    (u0 : UserId) (cid : ConvId) (u : UserId) :
    ConversationRepository.isParticipant
        (ConversationRepository.resetUnreadCount st cid0 u0) cid u =
      ConversationRepository.isParticipant st cid u := by
  unfold ConversationRepository.isParticipant
    ConversationRepository.resetUnreadCount
  apply any_map_congr
  intro c
  by_cases hc : (c.id == cid0) = true <;> simp [hc]

theorem markAsRead_clears (st : ChatState) (cid : ConvId) (u : UserId) :
    ∀ m ∈ (MessageRepository.markAsRead st cid u).2.messages,
      MessageRepository.readMatches cid u m = false := by
  intro m hm
  unfold MessageRepository.markAsRead at hm
  simp only [List.mem_map] at hm
  obtain ⟨m0, hm0, rfl⟩ := hm
  cases h0 : MessageRepository.readMatches cid u m0 with
  | true => simp [h0, MessageRepository.readMatches]
  | false => simp [h0]

/-! ## C9 -/

/-- C9: refuted (code bug).  `findOrCreateConversation` is a bare
find-then-create with no unique index on `participants` and no upsert:
under the admissible schedule in which both callers' `findOne` steps
complete before either `create`, two distinct non-deleted conversation
records for the unordered pair (1, 2) are created, violating pair
uniqueness. -/
theorem find_or_create_race_creates_duplicates :
    (pairConvs (twoUserState 1 2) 1 2).length = 0 ∧
    (ConversationRepository.focTwoCallsInterleaved (twoUserState 1 2) 1 2).1.id ≠
      (ConversationRepository.focTwoCallsInterleaved (twoUserState 1 2) 1 2).2.1.id ∧
    (pairConvs
      (ConversationRepository.focTwoCallsInterleaved (twoUserState 1 2) 1 2).2.2
      1 2).length = 2 := by
  decide

/-! ## C10 -/

/-- C10: for an existing conversation and a user `u` who is not one of its
two participants, `getOtherParticipant` returns the first participant (the
`participants.find` predicate holds of it), and `handleTypingStart` --
which performs no membership check -- therefore relays `user_typing` to
that participant of a conversation `u` does not belong to. -/
theorem typing_relay_to_nonmember_conversation
    (gs : ChatGateway.GatewayState) (cid : ConvId) (u : UserId)
    (c : Conversation)
    (hc : ConversationRepository.findById gs.chat cid = some c)
    (h1 : u ≠ c.participants.1) (h2 : u ≠ c.participants.2) :
    ChatService.getOtherParticipant gs.chat cid u = some c.participants.1 ∧
    c.participants.1 ≠ u ∧
    c.participants.2 ≠ u ∧
    (ChatGateway.handleTypingStart gs u cid).1 =
      .relayed c.participants.1 cid u true := by
  have hop : ChatService.getOtherParticipant gs.chat cid u =
      some c.participants.1 := by
    unfold ChatService.getOtherParticipant
      ConversationRepository.getOtherParticipant
    rw [hc]
    simp [Ne.symm h1]
  refine ⟨hop, Ne.symm h1, Ne.symm h2, ?_⟩
  unfold ChatGateway.handleTypingStart
  rw [hop]

/-- C10 witness: in the two-user store, user 3 (not a participant of
conversation 0 between users 1 and 2) triggers a relay to user 1. -/
theorem typing_relay_witness :
    ChatService.getOtherParticipant gsPair.chat 0 3 = some 1 ∧
    (1 : UserId) ≠ 3 ∧
    (2 : UserId) ≠ 3 ∧
    (ChatGateway.handleTypingStart gsPair 3 0).1 = .relayed 1 0 3 true :=
  typing_relay_to_nonmember_conversation gsPair 0 3 (mkConv 0 1 2)
    (by decide) (by decide) (by decide)

/-! ## C8 -/

/-- C8 counterexample: user 1 is soft-deleted and inactive, yet a valid
unexpired token for user 1 is accepted by `handleConnection`: the
connection reaches the authenticated path (room joined, presence
registered, pending deliveries marked) instead of being rejected, because
`authenticateSocket` never consults the user record. -/
theorem connection_accepts_deleted_inactive_user :
    findUser gsDeletedUser.chat 1 =
      some { id := 1, isDeleted := true, isActive := false } ∧
    ChatGateway.authenticateSocket hsValidUser1 = some 1 ∧
    (ChatGateway.handleConnection gsDeletedUser hsValidUser1).1 =
      .accepted 1 1 0 ∧
    (ChatGateway.handleConnection gsDeletedUser hsValidUser1).2.onlineUsers =
      [1] := by
  decide

/-- C8 (amended): a connection attempt whose handshake carries no token,
or only a token that fails verification (malformed / bad signature /
expired), is rejected: an error event is emitted, the socket is closed,
and no authenticated effect happens (no room join, no presence entry, no
delivery marking -- the gateway state is unchanged). -/
theorem connection_rejected_on_bad_token (gs : ChatGateway.GatewayState)
    (h : ChatGateway.Handshake) :
    (ChatGateway.extractToken h = none →
      ChatGateway.handleConnection gs h = (.rejected, gs)) ∧
    (∀ t, ChatGateway.extractToken h = some t →
      ChatGateway.verifyToken t = none →
      ChatGateway.handleConnection gs h = (.rejected, gs)) := by
  constructor
  · intro hn
    unfold ChatGateway.handleConnection ChatGateway.authenticateSocket
    rw [hn]
  · intro t ht hv
    unfold ChatGateway.handleConnection ChatGateway.authenticateSocket
    rw [ht]
    simp [hv]

/-- C8 witness: a tokenless handshake against the pair store is
rejected with no state change. -/
theorem connection_rejected_witness :
    ChatGateway.handleConnection gsPair hsNoToken =
      (.rejected, gsPair) :=
  (connection_rejected_on_bad_token gsPair hsNoToken).1 (by decide)

/-! ## C5 -/

/-- C5 counterexample: with no conversation 5 in the store at all,
`getConversation` fails with Forbidden, not NotFound -- the participant
check runs first and returns false for a missing conversation. -/
theorem get_conversation_missing_is_forbidden :
    ConversationRepository.findById (twoUserState 1 2) 5 = none ∧
    ChatService.getConversation (twoUserState 1 2) 5 1 = .error .forbidden ∧
    ApiError.forbidden ≠ ApiError.notFound := by
  decide

/-- C5 (amended): `getConversation` fails with Forbidden exactly when the
caller is not a participant of a non-deleted conversation with that id --
including when no conversation with that id exists; when the participant
check passes the call succeeds, so the NotFound branch is unreachable
(assuming the store keeps `_id` unique, as Mongo does). -/
theorem get_conversation_error_characterization (st : ChatState)
    (cid : ConvId) (u : UserId)
    (huniq : (st.conversations.map (fun c => c.id)).Nodup) :
    (ConversationRepository.isParticipant st cid u = false →
      ChatService.getConversation st cid u = .error .forbidden) ∧
    (ConversationRepository.findById st cid = none →
      ChatService.getConversation st cid u = .error .forbidden) ∧
    (ConversationRepository.isParticipant st cid u = true →
      ∃ c, ChatService.getConversation st cid u = .ok c ∧
        c.isDeleted = false) ∧
    (∀ e, ChatService.getConversation st cid u = .error e →
      e = .forbidden) := by
  have hforb : ConversationRepository.isParticipant st cid u = false →
      ChatService.getConversation st cid u = .error .forbidden := by
    intro hp
    unfold ChatService.getConversation
    rw [hp]
    rfl
  have hok : ConversationRepository.isParticipant st cid u = true →
      ∃ c, ChatService.getConversation st cid u = .ok c ∧
        c.isDeleted = false := by
    intro hp
    obtain ⟨c0, hc0mem, hc0⟩ := List.any_eq_true.mp hp
    have hc0' := hc0
    simp only [Bool.and_eq_true, Bool.not_eq_true'] at hc0'
    obtain ⟨⟨hcid, -⟩, hdel⟩ := hc0'
    cases hf : st.conversations.find? (fun c => c.id == cid) with
    | none =>
        exact absurd hcid
          (by simpa using List.find?_eq_none.mp hf c0 hc0mem)
    | some c1 =>
        have hc1mem := List.mem_of_find?_eq_some hf
        have hc1id := List.find?_some hf
        have heq : c1 = c0 :=
          nodup_key_inj (fun c => c.id) st.conversations huniq c1 hc1mem
            c0 hc0mem (by
              have h1 : c1.id = cid := by simpa using hc1id
              have h2 : c0.id = cid := by simpa using hcid
              show c1.id = c0.id
              rw [h1, h2])
        have hc1del : c1.isDeleted = false := heq ▸ hdel
        refine ⟨c1, ?_, hc1del⟩
        unfold ChatService.getConversation ConversationRepository.findById
        rw [hp]
        simp only [Bool.not_true, Bool.false_eq_true, if_false]
        rw [hf]
        simp [hc1del]
  refine ⟨hforb, ?_, hok, ?_⟩
  · intro hf
    apply hforb
    unfold ConversationRepository.findById at hf
    cases hp : ConversationRepository.isParticipant st cid u with
    | false => rfl
    | true =>
        obtain ⟨c0, hc0mem, hc0⟩ := List.any_eq_true.mp hp
        simp only [Bool.and_eq_true, Bool.not_eq_true'] at hc0
        exact absurd hc0.1.1
          (by simpa using List.find?_eq_none.mp hf c0 hc0mem)
  · intro e he
    cases hp : ConversationRepository.isParticipant st cid u with
    | false =>
        have := hforb hp
        rw [this] at he
        exact (Except.error.inj he).symm
    | true =>
        obtain ⟨c, hc, -⟩ := hok hp
        rw [hc] at he
        exact absurd he (by simp)

/-- C5 witness: in the pair store, participant 1 of conversation 0 gets
the conversation back (no NotFound, no Forbidden). -/
theorem get_conversation_ok_witness :
    ∃ c, ChatService.getConversation stPair 0 1 = .ok c ∧
      c.isDeleted = false :=
  (get_conversation_error_characterization stPair 0 1 (by decide)).2.2.1
    (by decide)

/-! ## C4 -/

/-- C4 counterexample: user 3 is not a participant of conversation 0, yet
`sendMessage` with that conversation id and a receiver id that denotes no
user fails with NotFound, not Forbidden -- the receiver-existence check
runs before the participant check. -/
theorem send_nonparticipant_can_get_notfound :
    ConversationRepository.isParticipant stPair 0 3 = false ∧
    findUser stPair 99 = none ∧
    (ChatService.sendMessage stPair 3 99 "" (some 0) .text none).1 =
      .error .notFound ∧
    ApiError.notFound ≠ ApiError.forbidden := by
  decide

/-- C4 (amended): for a caller who is not a participant of the
conversation, `listMessages` and `markConversationRead` always fail with
Forbidden, and `sendMessage` with that conversation id fails with
Forbidden provided the supplied receiver id denotes an existing
non-deleted user (otherwise it fails with NotFound); in every case the
call fails, returns no conversation data, and modifies no state. -/
theorem participant_isolation (st : ChatState) (cid : ConvId) (u : UserId)
    (hnp : ConversationRepository.isParticipant st cid u = false) :
    (∀ page limit, ChatService.getConversationMessages st cid u page limit =
      .error .forbidden) ∧
    (ChatService.markMessagesAsRead st cid u = (.error .forbidden, st)) ∧
    (∀ r content t md ru, findUser st r = some ru → ru.isDeleted = false →
      ChatService.sendMessage st u r content (some cid) t md =
        (.error .forbidden, st)) ∧
    (∀ r content t md, ∃ e,
      ChatService.sendMessage st u r content (some cid) t md =
        (.error e, st)) := by
  have hsend : ∀ r content t md ru, findUser st r = some ru →
      ru.isDeleted = false →
      ChatService.sendMessage st u r content (some cid) t md =
        (.error .forbidden, st) := by
    intro r content t md ru hr hdel
    unfold ChatService.sendMessage
    rw [hr]
    simp [hdel, hnp]
  refine ⟨?_, ?_, hsend, ?_⟩
  · intro page limit
    unfold ChatService.getConversationMessages
    rw [hnp]
    rfl
  · unfold ChatService.markMessagesAsRead
    rw [hnp]
    rfl
  · intro r content t md
    cases hr : findUser st r with
    | none =>
        refine ⟨.notFound, ?_⟩
        unfold ChatService.sendMessage
        rw [hr]
    | some ru =>
        cases hdel : ru.isDeleted with
        | true =>
            refine ⟨.notFound, ?_⟩
            unfold ChatService.sendMessage
            rw [hr]
            simp [hdel]
        | false => exact ⟨.forbidden, hsend r content t md ru hr hdel⟩

/-- C4 witness: non-participant 3 calling mark-read on conversation 0 is
rejected with Forbidden and the store is untouched. -/
theorem participant_isolation_witness :
    ChatService.markMessagesAsRead stPair 0 3 = (.error .forbidden, stPair) :=
  (participant_isolation stPair 0 3 (by decide)).2.1

/-! ## C3 -/

/-- C3: `markConversationRead` is idempotent: after a first (successful)
call, a second call with no interleaved sends returns `count = 0` with an
empty `messageIds` list, leaves every message untouched (already-read
messages are not matched again), and the caller's unread counter of the
conversation is 0 after the second call. -/
theorem mark_read_idempotent (st : ChatState) (cid : ConvId) (u : UserId)
    (hp : ConversationRepository.isParticipant st cid u = true) :
    ∃ r1 st1 st2,
      ChatService.markMessagesAsRead st cid u = (.ok r1, st1) ∧
      ChatService.markMessagesAsRead st1 cid u =
        (.ok { count := 0, messageIds := [] }, st2) ∧
      st2.messages = st1.messages ∧
      ChatService.unreadOf st2 cid u = 0 := by
  have okForm : ∀ st0 : ChatState,
      ConversationRepository.isParticipant st0 cid u = true →
      ChatService.markMessagesAsRead st0 cid u =
        (.ok { count := (MessageRepository.markAsRead st0 cid u).1,
               messageIds := MessageRepository.getUnreadMessageIds st0 cid u },
         ConversationRepository.resetUnreadCount
           (MessageRepository.markAsRead st0 cid u).2 cid u) := by
    intro st0 hp0
    unfold ChatService.markMessagesAsRead
    rw [hp0]
    rfl
  have h1 := okForm st hp
  have hp1 : ConversationRepository.isParticipant
      (ConversationRepository.resetUnreadCount
        (MessageRepository.markAsRead st cid u).2 cid u) cid u = true := by
    rw [isParticipant_resetUnreadCount]
    exact hp
  have hclear : ∀ m ∈ (ConversationRepository.resetUnreadCount
      (MessageRepository.markAsRead st cid u).2 cid u).messages,
      MessageRepository.readMatches cid u m = false :=
    fun m hm => markAsRead_clears st cid u m hm
  have hfilter : ((ConversationRepository.resetUnreadCount
      (MessageRepository.markAsRead st cid u).2 cid u).messages.filter
        (MessageRepository.readMatches cid u)) = [] :=
    filter_nil_of_no_match _ _ hclear
  have hcount : (MessageRepository.markAsRead
      (ConversationRepository.resetUnreadCount
        (MessageRepository.markAsRead st cid u).2 cid u) cid u).1 = 0 := by
    show ((ConversationRepository.resetUnreadCount
      (MessageRepository.markAsRead st cid u).2 cid u).messages.filter
        (MessageRepository.readMatches cid u)).length = 0
    rw [hfilter]
    rfl
  have hids : MessageRepository.getUnreadMessageIds
      (ConversationRepository.resetUnreadCount
        (MessageRepository.markAsRead st cid u).2 cid u) cid u = [] := by
    unfold MessageRepository.getUnreadMessageIds
    rw [hfilter]
    rfl
  have h2 : ChatService.markMessagesAsRead
      (ConversationRepository.resetUnreadCount
        (MessageRepository.markAsRead st cid u).2 cid u) cid u =
      (.ok { count := 0, messageIds := [] },
       ConversationRepository.resetUnreadCount
         (MessageRepository.markAsRead
           (ConversationRepository.resetUnreadCount
             (MessageRepository.markAsRead st cid u).2 cid u) cid u).2
         cid u) := by
    rw [okForm _ hp1, hids, hcount]
  have hmsgs : (MessageRepository.markAsRead
      (ConversationRepository.resetUnreadCount
        (MessageRepository.markAsRead st cid u).2 cid u) cid u).2.messages =
      (ConversationRepository.resetUnreadCount
        (MessageRepository.markAsRead st cid u).2 cid u).messages := by
    unfold MessageRepository.markAsRead
    exact map_if_id_of_no_match _ _ _ hclear
  refine ⟨_, _, _, h1, h2, hmsgs, ?_⟩
  unfold ChatService.unreadOf ConversationRepository.findById
  rw [show (ConversationRepository.resetUnreadCount
      (MessageRepository.markAsRead
        (ConversationRepository.resetUnreadCount
          (MessageRepository.markAsRead st cid u).2 cid u) cid u).2
      cid u).conversations =
    ((ConversationRepository.resetUnreadCount
      (MessageRepository.markAsRead st cid u).2 cid u).conversations.map
        (fun c => if c.id == cid then
          { c with unreadCount := setUnread c.unreadCount u 0 } else c))
    from rfl]
  rw [conv_find?_map _ (fun c => by
    by_cases hc : (c.id == cid) = true <;> simp [hc])]
  cases hfind : (ConversationRepository.resetUnreadCount
      (MessageRepository.markAsRead st cid u).2 cid u).conversations.find?
        (fun c => c.id == cid) with
  | none =>
      exfalso
      obtain ⟨c0, hc0mem, hc0⟩ := List.any_eq_true.mp hp1
      simp only [Bool.and_eq_true] at hc0
      exact absurd hc0.1.1
        (by simpa using List.find?_eq_none.mp hfind c0 hc0mem)
  | some c =>
      have hcid := List.find?_some hfind
      simp only [Option.map_some', hcid, if_true]
      simp [getUnread_setUnread_self, hcid]

/-- C3 witness: user 2 is a participant of conversation 0 in the
two-message store; the double-read run exists as described. -/
theorem mark_read_idempotent_witness :
    ∃ r1 st1 st2,
      ChatService.markMessagesAsRead stTwoMsgs 0 2 = (.ok r1, st1) ∧
      ChatService.markMessagesAsRead st1 0 2 =
        (.ok { count := 0, messageIds := [] }, st2) ∧
      st2.messages = st1.messages ∧
      ChatService.unreadOf st2 0 2 = 0 :=
  mark_read_idempotent stTwoMsgs 0 2 (by decide)

/-! ## C7 -/

/-- C7: `markUserMessagesDelivered` transitions every non-deleted SENT
message addressed to the user -- the filter carries no conversation key,
so the update is global across all conversations -- to DELIVERED in one
bulk update, returns the number of messages changed, is a no-op returning
0 (not an error) when nothing matches, and is invoked with exactly this
effect by `handleConnection` when the user's connection authenticates
(comes online). -/
theorem mark_delivered_global (st : ChatState) (u : UserId) :
    (MessageRepository.markAsDelivered st u).1 =
      (st.messages.filter (MessageRepository.deliveredMatches u)).length ∧
    (∀ i m, getMsg st i = some m →
      ∃ m', getMsg (MessageRepository.markAsDelivered st u).2 i = some m' ∧
        (MessageRepository.deliveredMatches u m = true →
          m'.status = .delivered ∧ m'.deliveredAt = some st.now ∧
          m'.conversation = m.conversation ∧ m'.receiver = m.receiver ∧
          m'.id = m.id) ∧
        (MessageRepository.deliveredMatches u m = false → m' = m)) ∧
    ((∀ m ∈ st.messages, MessageRepository.deliveredMatches u m = false) →
      (MessageRepository.markAsDelivered st u).1 = 0 ∧
      (MessageRepository.markAsDelivered st u).2.messages = st.messages ∧
      (MessageRepository.markAsDelivered st u).2.conversations =
        st.conversations) ∧
    (∀ gs h uid, ChatGateway.authenticateSocket h = some uid →
      (ChatGateway.handleConnection gs h).1 =
        .accepted uid uid (MessageRepository.markAsDelivered gs.chat uid).1 ∧
      (ChatGateway.handleConnection gs h).2.chat =
        (MessageRepository.markAsDelivered gs.chat uid).2) := by
  refine ⟨rfl, ?_, ?_, ?_⟩
  · intro i m hm
    have hshape : (MessageRepository.markAsDelivered st u).2.messages =
        st.messages.map (fun m0 =>
          if MessageRepository.deliveredMatches u m0 then
            { m0 with status := MessageStatus.delivered,
                      deliveredAt := some st.now }
          else m0) := rfl
    refine ⟨if MessageRepository.deliveredMatches u m then
        { m with status := MessageStatus.delivered,
                 deliveredAt := some st.now }
      else m, ?_, ?_, ?_⟩
    · unfold getMsg
      rw [hshape, msg_find?_map _ (fun m0 => by
        by_cases hc : MessageRepository.deliveredMatches u m0 = true <;>
          simp [hc])]
      rw [show st.messages.find? (fun m0 => m0.id == i) = some m from hm]
      rfl
    · intro hmt
      simp [hmt]
    · intro hmf
      simp [hmf]
  · intro hno
    refine ⟨?_, ?_, rfl⟩
    · show (st.messages.filter (MessageRepository.deliveredMatches u)).length = 0
      rw [filter_nil_of_no_match _ _ hno]
      rfl
    · show st.messages.map _ = st.messages
      exact map_if_id_of_no_match _ _ _ hno
  · intro gs h uid hauth
    unfold ChatGateway.handleConnection
    rw [hauth]
    exact ⟨rfl, rfl⟩

/-- C7 witness: both SENT messages addressed to user 2 (in the same store)
are counted by the bulk delivery update. -/
theorem mark_delivered_witness :
    (MessageRepository.markAsDelivered stTwoMsgs 2).1 = 2 :=
  (mark_delivered_global stTwoMsgs 2).1.trans (by decide)

/-! ## C2 -/

/-- The state invariant along `sendN`: the users are untouched and the
single (a,b) conversation carries unread counters `a ↦ 0`, `b ↦ n`. -/
theorem sendN_state (a b : UserId) (hab : a ≠ b) (n : Nat) :
    (sendN a b n).users = [mkUser a, mkUser b] ∧
    ∃ lm lms lma, (sendN a b n).conversations =
      [{ id := 0, participants := (a, b), lastMessage := lm,
         lastMessageSender := lms, lastMessageAt := lma,
         unreadCount := [(a, 0), (b, n)], isDeleted := false }] := by
  have hab' : (a == b) = false := beq_eq_false_iff_ne.mpr hab
  induction n with
  | zero => exact ⟨rfl, "", none, 0, rfl⟩
  | succ n ih =>
      obtain ⟨hu, lm, lms, lma, hc⟩ := ih
      have hfu : findUser (sendN a b n) b = some (mkUser b) := by
        unfold findUser
        rw [hu]
        simp [List.find?, mkUser, hab']
      have hfoc : ConversationRepository.focFind (sendN a b n) a b =
          some { id := 0, participants := (a, b), lastMessage := lm,
                 lastMessageSender := lms, lastMessageAt := lma,
                 unreadCount := [(a, 0), (b, n)], isDeleted := false } := by
        unfold ConversationRepository.focFind
        rw [hc]
        simp [List.find?, ConversationRepository.pairMatch]
      have hsend : sendN a b (n + 1) =
          (ChatService.sendMessage (sendN a b n) a b "hi" none .text none).2 :=
        rfl
      have hvc : MessageRepository.validContent "hi" = true := by decide
      have hinc : incUnread [(a, 0), (b, n)] b = [(a, 0), (b, n + 1)] := by
        simp [incUnread, setUnread, getUnread, List.find?, List.any_cons,
          hab', hab]
      constructor
      · rw [hsend]
        unfold ChatService.sendMessage ChatService.sendCore
        rw [hfu]
        unfold ConversationRepository.findOrCreateConversation
        rw [hfoc]
        simp [mkUser, MessageRepository.createMessage, hvc,
          ConversationRepository.updateLastMessage, hu]
      · refine ⟨ConversationRepository.truncatePreview "hi", some a,
          (sendN a b n).now + 1, ?_⟩
        rw [hsend]
        unfold ChatService.sendMessage ChatService.sendCore
        rw [hfu]
        unfold ConversationRepository.findOrCreateConversation
        rw [hfoc]
        simp [mkUser, MessageRepository.createMessage, hvc,
          ConversationRepository.updateLastMessage, hc, hinc]

/-- Each traced send passes the schema validation (the body "hi" is
non-empty and within the 5000-char bound), succeeds with an `ok` result,
and steps the trace. -/
theorem sendN_step_ok (a b : UserId) (hab : a ≠ b) (k : Nat) :
    ∃ msg conv,
      ChatService.sendMessage (sendN a b k) a b "hi" none .text none =
        (.ok (msg, conv), sendN a b (k + 1)) := by
  have hab' : (a == b) = false := beq_eq_false_iff_ne.mpr hab
  obtain ⟨hu, lm, lms, lma, hc⟩ := sendN_state a b hab k
  have hfu : findUser (sendN a b k) b = some (mkUser b) := by
    unfold findUser
    rw [hu]
    simp [List.find?, mkUser, hab']
  have hfoc : ConversationRepository.focFind (sendN a b k) a b =
      some { id := 0, participants := (a, b), lastMessage := lm,
             lastMessageSender := lms, lastMessageAt := lma,
             unreadCount := [(a, 0), (b, k)], isDeleted := false } := by
    unfold ConversationRepository.focFind
    rw [hc]
    simp [List.find?, ConversationRepository.pairMatch]
  have hvc : MessageRepository.validContent "hi" = true := by decide
  have h1 : ∃ msg conv,
      (ChatService.sendMessage (sendN a b k) a b "hi" none .text none).1 =
        .ok (msg, conv) := by
    unfold ChatService.sendMessage ChatService.sendCore
    rw [hfu]
    unfold ConversationRepository.findOrCreateConversation
    rw [hfoc]
    simp [mkUser, MessageRepository.createMessage, hvc]
  obtain ⟨msg, conv, h1⟩ := h1
  refine ⟨msg, conv, ?_⟩
  rw [← h1]
  rfl

/-- C2: starting from the freshly created (a,b) conversation (both unread
counters 0), after `n` sends from `a` to `b` -- each carrying the valid
non-empty body "hi", each passing the schema validation and returning
`ok` -- with no read-marking, the conversation's unread counter for `b`
is `n` and for `a` is 0; moreover each send's increment of
`unreadCount[receiver]` by exactly 1 happens in the same single store
update (`updateLastMessage`) as the last-message summary write. -/
theorem unread_accounting (a b : UserId) (hab : a ≠ b) (n : Nat) :
    (∃ c, ConversationRepository.findById (sendN a b n) 0 = some c ∧
      getUnread c.unreadCount b = n ∧ getUnread c.unreadCount a = 0) ∧
    (∀ k, ∃ msg conv,
      ChatService.sendMessage (sendN a b k) a b "hi" none .text none =
        (.ok (msg, conv), sendN a b (k + 1))) ∧
    (∀ st cid content s r c,
      ConversationRepository.findById st cid = some c →
      ConversationRepository.findById
          (ConversationRepository.updateLastMessage st cid content s r) cid =
        some { c with
          lastMessage := ConversationRepository.truncatePreview content,
          lastMessageSender := some s, lastMessageAt := st.now,
          unreadCount := incUnread c.unreadCount r }) ∧
    (∀ mp v, getUnread (incUnread mp v) v = getUnread mp v + 1) := by
  have hab' : (a == b) = false := beq_eq_false_iff_ne.mpr hab
  refine ⟨?_, fun k => sendN_step_ok a b hab k, ?_, ?_⟩
  · obtain ⟨-, lm, lms, lma, hc⟩ := sendN_state a b hab n
    refine ⟨{ id := 0, participants := (a, b), lastMessage := lm,
              lastMessageSender := lms, lastMessageAt := lma,
              unreadCount := [(a, 0), (b, n)], isDeleted := false },
      ?_, ?_, ?_⟩
    · unfold ConversationRepository.findById
      rw [hc]
      simp [List.find?]
    · simp [getUnread, List.find?, hab']
    · simp [getUnread, List.find?]
  · intro st cid content s r c hfind
    unfold ConversationRepository.findById at hfind ⊢
    unfold ConversationRepository.updateLastMessage
    rw [conv_find?_map _ (fun c0 => by
      by_cases hc0 : (c0.id == cid) = true <;> simp [hc0])]
    rw [hfind]
    have hcid := List.find?_some hfind
    simp [hcid]
    intro hne
    exact absurd (by simpa using hcid) hne
  · intro mp v
    unfold incUnread
    exact getUnread_setUnread_self mp v _

/-- C2 witness: three sends from user 1 to user 2. -/
theorem unread_accounting_witness :
    ∃ c, ConversationRepository.findById (sendN 1 2 3) 0 = some c ∧
      getUnread c.unreadCount 2 = 3 ∧ getUnread c.unreadCount 1 = 0 :=
  (unread_accounting 1 2 (by decide) 3).1

/-! ## C1 -/

theorem getMsg_eq_of_messages (st st' : ChatState) (i : MsgId)
    (h : st'.messages = st.messages) : getMsg st' i = getMsg st i := by
  unfold getMsg
  rw [h]

theorem statusRank_le_read (s : MessageStatus) : statusRank s ≤ 2 := by
  cases s <;> simp [statusRank]

theorem step_props_of_unchanged (m m' : Message) (hs : m'.status = m.status)
    (hr : m'.readAt = m.readAt) (hd : m'.deliveredAt = m.deliveredAt) :
    statusRank m.status ≤ statusRank m'.status ∧
    (m.status = .read → m'.status = .read) ∧
    (∀ t, m.readAt = some t → m'.readAt = some t) ∧
    (∀ t, m.deliveredAt = some t → m'.deliveredAt = some t) ∧
    (m'.readAt ≠ m.readAt → m.readAt = none ∧ m.status ≠ .read ∧
      m'.status = .read ∧ m'.readAt ≠ none) ∧
    (m'.deliveredAt ≠ m.deliveredAt → m.deliveredAt = none ∧
      m.status = .sent ∧ m'.status = .delivered ∧ m'.deliveredAt ≠ none) :=
  ⟨by rw [hs], fun h => by rw [hs, h], fun t ht => by rw [hr, ht],
   fun t ht => by rw [hd, ht], fun hne => absurd hr hne,
   fun hne => absurd hd hne⟩

theorem readMatches_not_read (cid : ConvId) (u : UserId) (m : Message)
    (h : MessageRepository.readMatches cid u m = true) :
    m.status ≠ .read := by
  simp only [MessageRepository.readMatches, Bool.and_eq_true, bne_iff_ne,
    ne_eq, Bool.not_eq_true', beq_iff_eq] at h
  tauto

theorem deliveredMatches_sent (u : UserId) (m : Message)
    (h : MessageRepository.deliveredMatches u m = true) :
    m.status = .sent := by
  simp only [MessageRepository.deliveredMatches, Bool.and_eq_true,
    Bool.not_eq_true', beq_iff_eq] at h
  tauto

theorem msgInv_new (m : Message) (hs : m.status = .sent)
    (hr : m.readAt = none) (hd : m.deliveredAt = none) : MsgInv m := by
  unfold MsgInv
  rw [hs, hr, hd]
  simp

theorem msgInv_readF (cid : ConvId) (u : UserId) (t : Time) (m : Message)
    (h : MsgInv m) :
    MsgInv (if MessageRepository.readMatches cid u m then
      { m with status := MessageStatus.read, readAt := some t } else m) := by
  by_cases hm : MessageRepository.readMatches cid u m = true
  · rw [if_pos hm]
    exact ⟨by simp, by simp, by simp⟩
  · rw [if_neg hm]
    exact h

theorem msgInv_delivF (u : UserId) (t : Time) (m : Message) (h : MsgInv m) :
    MsgInv (if MessageRepository.deliveredMatches u m then
      { m with status := MessageStatus.delivered, deliveredAt := some t }
    else m) := by
  by_cases hm : MessageRepository.deliveredMatches u m = true
  · rw [if_pos hm]
    have hsent := deliveredMatches_sent u m hm
    have hreadAt : m.readAt = none := by
      by_contra hne
      have hread := h.1.mp hne
      rw [hsent] at hread
      exact MessageStatus.noConfusion hread
    exact ⟨by simp [hreadAt], by simp, by simp⟩
  · rw [if_neg hm]
    exact h

theorem msgInv_sdF (mid : MsgId) (u : UserId) (m : Message) (h : MsgInv m) :
    MsgInv (if m.id == mid && m.sender == u && !m.isDeleted then
      { m with isDeleted := true } else m) := by
  by_cases hm : (m.id == mid && m.sender == u && !m.isDeleted) = true
  · rw [if_pos hm]
    exact h
  · rw [if_neg hm]
    exact h

theorem stateInv_applyOp (st : ChatState) (op : ChatOp) (h : StateInv st) :
    StateInv (applyOp st op) := by
  cases op with
  | send s r content cid t md =>
      intro m hm
      simp only [applyOp] at hm
      rcases sendMessage_messages st s r content cid t md with heq |
        ⟨msg, heq, hs, hr, hd⟩
      · rw [heq] at hm
        exact h m hm
      · rw [heq] at hm
        rcases List.mem_append.mp hm with hm1 | hm2
        · exact h m hm1
        · rw [List.mem_singleton.mp hm2]
          exact msgInv_new msg hs hr hd
  | markRead cid u =>
      intro m hm
      simp only [applyOp] at hm
      rcases markMessagesAsRead_messages st cid u with heq | heq
      · rw [heq] at hm
        exact h m hm
      · rw [heq] at hm
        obtain ⟨m0, hm0, rfl⟩ := List.mem_map.mp hm
        exact msgInv_readF cid u st.now m0 (h m0 hm0)
  | markDelivered u =>
      intro m hm
      simp only [applyOp, ChatService.markMessagesAsDelivered] at hm
      rw [show (MessageRepository.markAsDelivered st u).2.messages =
          st.messages.map (fun m0 =>
            if MessageRepository.deliveredMatches u m0 then
              { m0 with status := MessageStatus.delivered,
                        deliveredAt := some st.now }
            else m0) from rfl] at hm
      obtain ⟨m0, hm0, rfl⟩ := List.mem_map.mp hm
      exact msgInv_delivF u st.now m0 (h m0 hm0)
  | getOrCreate u1 u2 =>
      intro m hm
      simp only [applyOp] at hm
      rw [getOrCreate_messages] at hm
      exact h m hm
  | softDeleteMsg mid u =>
      intro m hm
      simp only [applyOp] at hm
      rw [show (MessageRepository.softDelete st mid u).messages =
          st.messages.map (fun m0 =>
            if m0.id == mid && m0.sender == u && !m0.isDeleted then
              { m0 with isDeleted := true } else m0) from rfl] at hm
      obtain ⟨m0, hm0, rfl⟩ := List.mem_map.mp hm
      exact msgInv_sdF mid u m0 (h m0 hm0)

/-- C1: across every service-layer operation, a stored message's status
only advances through sent → delivered → read and never regresses;
`markAsRead` (behind `markConversationRead`) never matches a message
already READ, `markAsDelivered` (behind `markUserMessagesDelivered`) only
matches SENT messages; `readAt`/`deliveredAt` are preserved once set,
change only on the first transition into READ (resp. DELIVERED), at which
point they go from `none` to a timestamp, and are never cleared -- and the
delivery-state invariant is preserved, so this holds along any sequence of
operations. -/
theorem message_status_monotonic (st : ChatState) (op : ChatOp) (i : MsgId)
    (m : Message) (hinv : StateInv st) (hm : getMsg st i = some m) :
    StateInv (applyOp st op) ∧
    (∀ cid u, MessageRepository.readMatches cid u m = true →
      m.status ≠ .read) ∧
    (∀ u, MessageRepository.deliveredMatches u m = true →
      m.status = .sent) ∧
    ∃ m', getMsg (applyOp st op) i = some m' ∧
      statusRank m.status ≤ statusRank m'.status ∧
      (m.status = .read → m'.status = .read) ∧
      (∀ t, m.readAt = some t → m'.readAt = some t) ∧
      (∀ t, m.deliveredAt = some t → m'.deliveredAt = some t) ∧
      (m'.readAt ≠ m.readAt → m.readAt = none ∧ m.status ≠ .read ∧
        m'.status = .read ∧ m'.readAt ≠ none) ∧
      (m'.deliveredAt ≠ m.deliveredAt → m.deliveredAt = none ∧
        m.status = .sent ∧ m'.status = .delivered ∧
        m'.deliveredAt ≠ none) := by
  refine ⟨stateInv_applyOp st op hinv,
    fun cid u hh => readMatches_not_read cid u m hh,
    fun u hh => deliveredMatches_sent u m hh, ?_⟩
  have hMsgInv : MsgInv m := hinv m (List.mem_of_find?_eq_some hm)
  cases op with
  | send s r content cid t md =>
      simp only [applyOp]
      rcases sendMessage_messages st s r content cid t md with heq |
        ⟨msg, heq, -, -, -⟩
      · exact ⟨m, by rw [getMsg_eq_of_messages _ _ _ heq]; exact hm,
          step_props_of_unchanged m m rfl rfl rfl⟩
      · refine ⟨m, ?_, step_props_of_unchanged m m rfl rfl rfl⟩
        unfold getMsg
        rw [heq]
        exact find?_append_of_some _ _ _ _ hm
  | markRead cid u =>
      simp only [applyOp]
      rcases markMessagesAsRead_messages st cid u with heq | heq
      · exact ⟨m, by rw [getMsg_eq_of_messages _ _ _ heq]; exact hm,
          step_props_of_unchanged m m rfl rfl rfl⟩
      · refine ⟨if MessageRepository.readMatches cid u m then
            { m with status := MessageStatus.read, readAt := some st.now }
          else m, ?_, ?_⟩
        · unfold getMsg
          rw [heq, msg_find?_map _ (fun m0 => by
              by_cases hc : MessageRepository.readMatches cid u m0 = true <;>
                simp [hc]),
            show st.messages.find? (fun m0 => m0.id == i) = some m from hm]
          rfl
        · by_cases hmt : MessageRepository.readMatches cid u m = true
          · have hnotread := readMatches_not_read cid u m hmt
            have hreadAt : m.readAt = none := by
              by_contra hne
              exact hnotread (hMsgInv.1.mp hne)
            rw [if_pos hmt]
            refine ⟨?_, ?_, ?_, ?_, ?_, ?_⟩
            · exact statusRank_le_read m.status
            · intro hr
              exact absurd hr hnotread
            · intro t0 ht
              rw [hreadAt] at ht
              exact Option.noConfusion ht
            · intro t0 ht
              exact ht
            · intro hne
              exact ⟨hreadAt, hnotread, rfl, by simp⟩
            · intro hne
              exact absurd rfl hne
          · rw [if_neg hmt]
            exact step_props_of_unchanged m m rfl rfl rfl
  | markDelivered u =>
      simp only [applyOp, ChatService.markMessagesAsDelivered]
      refine ⟨if MessageRepository.deliveredMatches u m then
          { m with status := MessageStatus.delivered,
                   deliveredAt := some st.now }
        else m, ?_, ?_⟩
      · unfold getMsg
        rw [show (MessageRepository.markAsDelivered st u).2.messages =
            st.messages.map (fun m0 =>
              if MessageRepository.deliveredMatches u m0 then
                { m0 with status := MessageStatus.delivered,
                          deliveredAt := some st.now }
              else m0) from rfl,
          msg_find?_map _ (fun m0 => by
            by_cases hc : MessageRepository.deliveredMatches u m0 = true <;>
              simp [hc]),
          show st.messages.find? (fun m0 => m0.id == i) = some m from hm]
        rfl
      · by_cases hmt : MessageRepository.deliveredMatches u m = true
        · have hsent := deliveredMatches_sent u m hmt
          have hdeliv : m.deliveredAt = none := by
            by_contra hne
            exact hMsgInv.2.1 hne hsent
          rw [if_pos hmt]
          refine ⟨?_, ?_, ?_, ?_, ?_, ?_⟩
          · rw [hsent]
            show statusRank MessageStatus.sent ≤
              statusRank MessageStatus.delivered
            decide
          · intro hr
            rw [hsent] at hr
            exact MessageStatus.noConfusion hr
          · intro t0 ht
            exact ht
          · intro t0 ht
            rw [hdeliv] at ht
            exact Option.noConfusion ht
          · intro hne
            exact absurd rfl hne
          · intro hne
            exact ⟨hdeliv, hsent, rfl, by simp⟩
        · rw [if_neg hmt]
          exact step_props_of_unchanged m m rfl rfl rfl
  | getOrCreate u1 u2 =>
      simp only [applyOp]
      exact ⟨m, by
          rw [getMsg_eq_of_messages _ _ _ (getOrCreate_messages st u1 u2)]
          exact hm,
        step_props_of_unchanged m m rfl rfl rfl⟩
  | softDeleteMsg mid u =>
      simp only [applyOp]
      refine ⟨if m.id == mid && m.sender == u && !m.isDeleted then
          { m with isDeleted := true } else m, ?_, ?_⟩
      · unfold getMsg
        rw [show (MessageRepository.softDelete st mid u).messages =
            st.messages.map (fun m0 =>
              if m0.id == mid && m0.sender == u && !m0.isDeleted then
                { m0 with isDeleted := true } else m0) from rfl,
          msg_find?_map _ (fun m0 => by
            by_cases hc :
                (m0.id == mid && m0.sender == u && !m0.isDeleted) = true <;>
              simp [hc]),
          show st.messages.find? (fun m0 => m0.id == i) = some m from hm]
        rfl
      · by_cases hc : (m.id == mid && m.sender == u && !m.isDeleted) = true
        · rw [if_pos hc]
          exact step_props_of_unchanged m _ rfl rfl rfl
        · rw [if_neg hc]
          exact step_props_of_unchanged m m rfl rfl rfl

/-! ## C6 -/

theorem chunks_flatten_aux {α : Type} (limit : Nat) (hl : 1 ≤ limit) :
    ∀ (fuel : Nat) (r : List α), r.length ≤ fuel →
      ((List.range ((r.length + limit - 1) / limit)).map
        (fun k => (r.drop (k * limit)).take limit)).flatten = r := by
  intro fuel
  induction fuel with
  | zero =>
      intro r hr
      have hnil : r = [] := by
        cases r with
        | nil => rfl
        | cons x xs => simp at hr
      subst hnil
      have h0 : (0 + limit - 1) / limit = 0 := Nat.div_eq_of_lt (by omega)
      simp [h0]
  | succ fuel ih =>
      intro r hr
      cases r with
      | nil =>
          have h0 : (0 + limit - 1) / limit = 0 := Nat.div_eq_of_lt (by omega)
          simp [h0]
      | cons x xs =>
          have hr' : xs.length + 1 ≤ fuel + 1 := by simpa using hr
          have hP : ((x :: xs).length + limit - 1) / limit =
              xs.length / limit + 1 := by
            have hx : (x :: xs).length + limit - 1 = xs.length + limit := by
              simp [List.length_cons]
            rw [hx, Nat.add_div_right _ (by omega)]
          rw [hP, List.range_succ_eq_map]
          simp only [List.map_cons, List.flatten_cons, List.map_map,
            Nat.zero_mul, List.drop_zero]
          have hcomp :
              ((fun k => ((x :: xs).drop (k * limit)).take limit) ∘ Nat.succ) =
              fun k => (((x :: xs).drop limit).drop (k * limit)).take limit := by
            funext k
            simp only [Function.comp]
            rw [List.drop_drop, Nat.succ_mul, Nat.add_comm (k * limit) limit]
          rw [hcomp]
          have hlen2 : (((x :: xs).drop limit).length + limit - 1) / limit =
              xs.length / limit := by
            rw [List.length_drop]
            simp only [List.length_cons]
            rcases Nat.le_total limit (xs.length + 1) with hle | hle
            · have hx : xs.length + 1 - limit + limit - 1 = xs.length := by
                omega
              rw [hx]
            · have h1 : xs.length + 1 - limit = 0 := by omega
              rw [h1]
              have h2 : (0 + limit - 1) / limit = 0 :=
                Nat.div_eq_of_lt (by omega)
              rw [h2]
              exact (Nat.div_eq_of_lt (by omega)).symm
          have hfuel : ((x :: xs).drop limit).length ≤ fuel := by
            rw [List.length_drop]
            simp only [List.length_cons]
            omega
          have hrec := ih ((x :: xs).drop limit) hfuel
          rw [hlen2] at hrec
          rw [hrec]
          exact List.take_append_drop limit (x :: xs)

theorem flatten_map_reverse {α : Type} (M : List (List α)) :
    ((M.map List.reverse).reverse).flatten = M.flatten.reverse := by
  induction M with
  | nil => rfl
  | cons x t ih =>
      simp only [List.map_cons, List.reverse_cons, List.flatten_append,
        List.flatten_cons, List.flatten_nil, List.append_nil, ih,
        List.reverse_append]

theorem pages_rev_flatten {α : Type} (limit : Nat) (hl : 1 ≤ limit)
    (L : List α) :
    ((List.range ((L.length + limit - 1) / limit)).reverse.map
      (fun k => ((L.reverse.drop (k * limit)).take limit).reverse)).flatten =
      L := by
  have hkey := chunks_flatten_aux limit hl L.reverse.length L.reverse le_rfl
  rw [List.length_reverse] at hkey
  have h1 : (List.range ((L.length + limit - 1) / limit)).reverse.map
      (fun k => ((L.reverse.drop (k * limit)).take limit).reverse) =
      (((List.range ((L.length + limit - 1) / limit)).map
        (fun k => (L.reverse.drop (k * limit)).take limit)).map
          List.reverse).reverse := by
    rw [List.map_map, ← List.map_reverse]
    rfl
  rw [h1, flatten_map_reverse, hkey, List.reverse_reverse]

/-- C6 counterexample: with two messages and page size 1, the pages
concatenated in page order are newest-first-by-block, not the
chronological log -- page 1 holds the newest message. -/
theorem pagination_in_order_fails :
    pagesConcatInOrder stTwoMsgs 0 1 ≠
      MessageRepository.conversationLog stTwoMsgs 0 ∧
    pagesConcatInOrder stTwoMsgs 0 1 =
      [mkSentMsg 1 0 1 2 1, mkSentMsg 0 0 1 2 0] ∧
    MessageRepository.conversationLog stTwoMsgs 0 =
      [mkSentMsg 0 0 1 2 0, mkSentMsg 1 0 1 2 1] := by
  decide

/-- C6 (amended): for every page size limit ≥ 1, `listMessages` paginates
most-recent-first internally and returns each page in chronological
(ascending `createdAt`) order; the pages concatenated in REVERSE page
order (page numPages first, page 1 last -- the order a client prepends
older pages) reproduce the full chronological log of the conversation's
non-deleted messages with no duplicates or gaps. -/
theorem pagination_round_trip (st : ChatState) (cid : ConvId) (limit : Nat)
    (hl : 1 ≤ limit) :
    pagesConcatRev st cid limit = MessageRepository.conversationLog st cid ∧
    (Chrono (MessageRepository.conversationLog st cid) →
      ∀ page, Chrono (pageMessages st cid page limit)) := by
  have hpage : ∀ page : Nat, pageMessages st cid page limit =
      (((MessageRepository.conversationLog st cid).reverse.drop
        ((page - 1) * limit)).take limit).reverse := by
    intro page
    rfl
  constructor
  · unfold pagesConcatRev numPages
    simp only [hpage, Nat.add_sub_cancel]
    exact pages_rev_flatten limit hl (MessageRepository.conversationLog st cid)
  · intro hch page
    rw [hpage page]
    unfold Chrono at hch ⊢
    rw [List.pairwise_reverse]
    have hrev : (MessageRepository.conversationLog st cid).reverse.Pairwise
        (fun a b => b.createdAt ≤ a.createdAt) := by
      rw [List.pairwise_reverse]
      exact hch
    have hsub : List.Sublist
        (((MessageRepository.conversationLog st cid).reverse.drop
          ((page - 1) * limit)).take limit)
        (MessageRepository.conversationLog st cid).reverse :=
      (List.take_sublist _ _).trans (List.drop_sublist _ _)
    exact hrev.sublist hsub

/-- C6 witness: with page size 1 in the two-message store, the reverse
page order concatenation reproduces the log. -/
theorem pagination_round_trip_witness :
    pagesConcatRev stTwoMsgs 0 1 =
      MessageRepository.conversationLog stTwoMsgs 0 :=
  (pagination_round_trip stTwoMsgs 0 1 (by decide)).1

/-- C1 witness: marking conversation 0 read for user 2 in the two-message
store, tracked at message 0. -/
theorem message_status_monotonic_witness :
    ∃ m', getMsg (applyOp stTwoMsgs (ChatOp.markRead 0 2)) 0 = some m' ∧
      statusRank (mkSentMsg 0 0 1 2 0).status ≤ statusRank m'.status ∧
      ((mkSentMsg 0 0 1 2 0).status = .read → m'.status = .read) ∧
      (∀ t, (mkSentMsg 0 0 1 2 0).readAt = some t → m'.readAt = some t) ∧
      (∀ t, (mkSentMsg 0 0 1 2 0).deliveredAt = some t →
        m'.deliveredAt = some t) ∧
      (m'.readAt ≠ (mkSentMsg 0 0 1 2 0).readAt →
        (mkSentMsg 0 0 1 2 0).readAt = none ∧
        (mkSentMsg 0 0 1 2 0).status ≠ .read ∧ m'.status = .read ∧
        m'.readAt ≠ none) ∧
      (m'.deliveredAt ≠ (mkSentMsg 0 0 1 2 0).deliveredAt →
        (mkSentMsg 0 0 1 2 0).deliveredAt = none ∧
        (mkSentMsg 0 0 1 2 0).status = .sent ∧
        m'.status = .delivered ∧ m'.deliveredAt ≠ none) :=
  (message_status_monotonic stTwoMsgs (ChatOp.markRead 0 2) 0
    (mkSentMsg 0 0 1 2 0) (by decide) (by decide)).2.2.2

end NestChat
